import Mathlib

/-! backendCatPaws: the item service of `functions/index.js`

A shallow embedding of the Express handlers of `functions/index.js` together with
the parts of the JavaScript language (string-to-number coercion, relational
comparison, `Array.prototype.splice`) and of the Firestore client (`get`, `add`,
`update`, `FieldValue.increment`, `FieldValue.arrayUnion`) that the handlers rely on.

Handlers are pure functions from the store (and the request) to an `Outcome`: the
HTTP response, the store afterwards and the list of store calls the handler issued.
Values the handler obtains from its environment (the server clock read by
`Timestamp.now()`, the identifier the store generates in `add`) are explicit arguments.
-/

namespace CatPaws

/-! ## Values and documents -/

/-- Names of the fields this service reads or writes on an item document. -/
inductive Field
  | name | image | description | comments | subtitle | createdAt | updatedAt | likes
  deriving DecidableEq, Repr

/-- Values that can be an element of an array field. -/
inductive Scalar
  | null
  | bool (b : Bool)
  | num (n : Int)
  | str (s : String)
  | timestamp (t : Nat)
  deriving DecidableEq, Repr

/-- A JavaScript value as the handlers see it: `undefined` (what destructuring yields
for a key the request body does not have), a scalar, or an array of scalars. -/
inductive Value
  | undefined
  | scalar (v : Scalar)
  | arr (xs : List Scalar)
  deriving DecidableEq, Repr

/-- Document data: an association list from field to value. -/
abbrev Doc := List (Field × Value)

/-- Read a field of a document (`data.field`); `none` when the field is absent. -/
def Doc.get (d : Doc) (k : Field) : Option Value :=
  match d with
  | [] => none
  | (k', v) :: rest => if k' = k then some v else Doc.get rest k

/-- Write a field of a document, replacing a previous value of that field. -/
def Doc.set (d : Doc) (k : Field) (v : Value) : Doc :=
  match d with
  | [] => [(k, v)]
  | (k', v') :: rest => if k' = k then (k, v) :: rest else (k', v') :: Doc.set rest k v

/-! ## JavaScript numbers obtained from text -/

/-- Result of applying `ToNumber` to a string: `NaN`, an infinity, or the finite
number `(-1)^neg * mant * 10^exp` (every binary64 number has such a form; `fin true 0 _`
is negative zero). -/
inductive JSNum
  | nan
  | inf (neg : Bool)
  | fin (neg : Bool) (mant : Nat) (exp : Int)
  deriving DecidableEq, Repr

/-- White space and line terminators stripped by `StringToNumber`. -/
def isStrWhiteSpace (c : Char) : Bool :=
  decide (c.toNat = 0x09 ∨ c.toNat = 0x0A ∨ c.toNat = 0x0B ∨ c.toNat = 0x0C ∨ c.toNat = 0x0D ∨
    c.toNat = 0x20 ∨ c.toNat = 0xA0 ∨ c.toNat = 0x1680 ∨ (0x2000 ≤ c.toNat ∧ c.toNat ≤ 0x200A) ∨
    c.toNat = 0x2028 ∨ c.toNat = 0x2029 ∨ c.toNat = 0x202F ∨ c.toNat = 0x205F ∨
    c.toNat = 0x3000 ∨ c.toNat = 0xFEFF)

/-- Strip leading and trailing white space. -/
def trimWS (cs : List Char) : List Char :=
  ((cs.dropWhile isStrWhiteSpace).reverse.dropWhile isStrWhiteSpace).reverse

/-- Value of a run of decimal digits. -/
def decValue (cs : List Char) : Nat :=
  cs.foldl (fun a c => 10 * a + (c.toNat - 48)) 0

/-- Auxiliary for `log2Floor`, with fuel. -/
def log2Aux : Nat → Nat → Nat
  | 0, _ => 0
  | fuel + 1, n => if n < 2 then 0 else log2Aux fuel (n / 2) + 1

/-- Floor of the binary logarithm (zero for zero). -/
def log2Floor (n : Nat) : Nat := log2Aux n n

/-- Whether `m / d` is at least `2 ^ e`. -/
def scaledGe (m d : Nat) (e : Int) : Bool :=
  if 0 ≤ e then decide (d * 2 ^ e.toNat ≤ m) else decide (d ≤ m * 2 ^ (-e).toNat)

/-- The binary64 number nearest to the positive rational `m / d`, ties to even: the
significand has 53 bits, the least unit is `2 ^ (-1074)`, and a result of `2 ^ 1024` or
more is an infinity. -/
def roundToBinary64 (neg : Bool) (m d : Nat) : JSNum :=
  let e0 : Int := (log2Floor m : Int) - (log2Floor d : Int)
  let e : Int := if scaledGe m d e0 then e0 else e0 - 1
  let u : Int := max (e - 52) (-1074)
  let num := if 0 ≤ u then m else m * 2 ^ (-u).toNat
  let den := if 0 ≤ u then d * 2 ^ u.toNat else d
  let q0 := num / den
  let r := num % den
  let q := if den < 2 * r ∨ (2 * r = den ∧ q0 % 2 = 1) then q0 + 1 else q0
  if 0 ≤ u then
    if 2 ^ 1024 ≤ q * 2 ^ u.toNat then JSNum.inf neg else JSNum.fin neg (q * 2 ^ u.toNat) 0
  else JSNum.fin neg (q * 5 ^ (-u).toNat) u

/-- The number denoted by the decimal `mant * 10^exp` with the given sign. A value that
is not an integer is rounded to binary64. An integer is kept as it is: that is its
binary64 value below `2^53`, and from there on rounding does not change how it compares
with the length of an array. -/
def decimal (neg : Bool) (mant : Nat) (exp : Int) : JSNum :=
  if 0 ≤ exp ∨ mant % 10 ^ (-exp).toNat = 0 then JSNum.fin neg mant exp
  else roundToBinary64 neg mant (10 ^ (-exp).toNat)

/-- Value of a digit in a radix up to sixteen. -/
def radixDigit (c : Char) : Option Nat :=
  if c.isDigit then some (c.toNat - 48)
  else if 97 ≤ c.toNat ∧ c.toNat ≤ 102 then some (c.toNat - 87)
  else if 65 ≤ c.toNat ∧ c.toNat ≤ 70 then some (c.toNat - 55)
  else none

/-- `NonDecimalIntegerLiteral` without its two-character marker. -/
def parseRadix (base : Nat) (cs : List Char) : JSNum :=
  if cs ≠ [] ∧ cs.all (fun c => (radixDigit c).any (fun d => decide (d < base))) then
    JSNum.fin false (cs.foldl (fun a c => base * a + (radixDigit c).getD 0) 0) 0
  else JSNum.nan

/-- `SignedInteger` after the exponent indicator. -/
def parseExponent (cs : List Char) : Option Int :=
  let neg := cs.head? = some '-'
  let ds := if cs.head? = some '-' ∨ cs.head? = some '+' then cs.tail else cs
  if ds ≠ [] ∧ ds.all Char.isDigit then
    some (if neg then -(decValue ds : Int) else (decValue ds : Int))
  else none

/-- `StrUnsignedDecimalLiteral`, with the sign read before it. -/
def parseUnsignedDecimal (neg : Bool) (cs : List Char) : JSNum :=
  if cs = "Infinity".toList then JSNum.inf neg
  else
    let ip := cs.takeWhile Char.isDigit
    let r1 := cs.dropWhile Char.isDigit
    let hasDot := r1.head? = some '.'
    let fp := if hasDot then r1.tail.takeWhile Char.isDigit else []
    let r2 := if hasDot then r1.tail.dropWhile Char.isDigit else r1
    if ip = [] ∧ fp = [] then JSNum.nan
    else
      match r2 with
      | [] => decimal neg (decValue (ip ++ fp)) (-(fp.length : Int))
      | c :: r =>
        if c = 'e' ∨ c = 'E' then
          match parseExponent r with
          | some e => decimal neg (decValue (ip ++ fp)) (e - (fp.length : Int))
          | none => JSNum.nan
        else JSNum.nan

/-- `StringToNumber`: what `ToNumber` yields for a string operand. -/
def stringToNumber (s : String) : JSNum :=
  let cs := trimWS s.toList
  if cs = [] then JSNum.fin false 0 0
  else if cs.take 2 = ['0', 'x'] ∨ cs.take 2 = ['0', 'X'] then parseRadix 16 (cs.drop 2)
  else if cs.take 2 = ['0', 'o'] ∨ cs.take 2 = ['0', 'O'] then parseRadix 8 (cs.drop 2)
  else if cs.take 2 = ['0', 'b'] ∨ cs.take 2 = ['0', 'B'] then parseRadix 2 (cs.drop 2)
  else if cs.head? = some '+' then parseUnsignedDecimal false cs.tail
  else if cs.head? = some '-' then parseUnsignedDecimal true cs.tail
  else parseUnsignedDecimal false cs

/-- `IsLessThan(x, n)` for a number `x` and a non-negative integer `n`; `none` is the
`undefined` result of a comparison with `NaN`. -/
def JSNum.isLessThan (x : JSNum) (n : Nat) : Option Bool :=
  match x with
  | JSNum.nan => none
  | JSNum.inf neg => some neg
  | JSNum.fin true m _ => some (decide (m ≠ 0 ∨ 0 < n))
  | JSNum.fin false m e =>
    some (if 0 ≤ e then decide (m * 10 ^ e.toNat < n) else decide (m < n * 10 ^ (-e).toNat))

/-- The expression `x < n`. -/
def jsLt (x : JSNum) (n : Nat) : Bool := x.isLessThan n == some true

/-- The expression `x >= n`: false when `IsLessThan` is true or undefined. -/
def jsGe (x : JSNum) (n : Nat) : Bool := x.isLessThan n == some false

/-- An integer or an infinity. -/
inductive IntOrInf
  | negInf
  | int (k : Int)
  | posInf
  deriving DecidableEq, Repr

/-- `ToIntegerOrInfinity`: `NaN` becomes zero, finite values are truncated. -/
def JSNum.toIntegerOrInfinity (x : JSNum) : IntOrInf :=
  match x with
  | JSNum.nan => IntOrInf.int 0
  | JSNum.inf true => IntOrInf.negInf
  | JSNum.inf false => IntOrInf.posInf
  | JSNum.fin neg m e =>
    let t : Nat := if 0 ≤ e then m * 10 ^ e.toNat else m / 10 ^ (-e).toNat
    IntOrInf.int (if neg then -(t : Int) else (t : Int))

/-- The array left behind by `xs.splice(start, deleteCount)`. -/
def splice {α : Type} (xs : List α) (start : JSNum) (deleteCount : Nat) : List α :=
  let len := xs.length
  let actualStart : Nat :=
    match start.toIntegerOrInfinity with
    | IntOrInf.negInf => 0
    | IntOrInf.posInf => len
    | IntOrInf.int k => if k < 0 then ((len : Int) + k).toNat else min k.toNat len
  let actualDeleteCount := min deleteCount (len - actualStart)
  xs.take actualStart ++ xs.drop (actualStart + actualDeleteCount)

/-- The `length` of a string: its number of UTF-16 code units. -/
def utf16Length (s : String) : Nat :=
  (s.toList.map (fun c => if c.toNat < 0x10000 then 1 else 2)).sum

/-! ## The document store (Firestore client, collection `items`) -/

/-- The value given for a field in the data of an `update` call: a plain value or one
of the `FieldValue` sentinels the handlers use. -/
inductive FieldInput
  | plain (v : Value)
  | increment (n : Int)
  | arrayUnion (elements : List Value)
  deriving DecidableEq, Repr

/-- The collection: documents by identifier, whether the backend can be reached, and
the project the database belongs to (it occurs in the paths of error messages). -/
structure Store where
  docs : List (String × Doc)
  available : Bool
  projectId : String
  deriving DecidableEq, Repr

/-- A call a handler issues on the store client. -/
inductive Call
  | add (newId : String) (data : List (Field × Value))
  | getAll
  | get (id : String)
  | update (id : String) (data : List (Field × FieldInput))
  deriving DecidableEq, Repr

/-- Name of the collection the handlers work on. -/
def collectionName : String := "items"

/-- The key of a field, as text. -/
def Field.key (k : Field) : String :=
  match k with
  | Field.name => "name"
  | Field.image => "image"
  | Field.description => "description"
  | Field.comments => "comments"
  | Field.subtitle => "subtitle"
  | Field.createdAt => "createdAt"
  | Field.updatedAt => "updatedAt"
  | Field.likes => "likes"

/-- Resource name of the document with the given identifier. -/
def Store.path (s : Store) (id : String) : String :=
  "projects/" ++ s.projectId ++ "/databases/(default)/documents/" ++ collectionName ++ "/" ++ id

/-- Message of the error raised when the backend cannot be reached. -/
def unavailableError : String := "14 UNAVAILABLE: No connection established"

/-- Closing sentence of the client's messages about `undefined` (the client is created
with default settings, so `undefined` values are not ignored). -/
def ignoreHint : String :=
  " If you want to ignore undefined values, enable `ignoreUndefinedProperties`."

/-- Opening sentence of the messages of errors raised while `update` checks its data. -/
def updateUsage : String :=
  "Update() requires either a single JavaScript object or an alternating list of " ++
    "field/value pairs that can be followed by an optional precondition."

/-- Message of the error `add` raises for a field whose value is `undefined`. -/
def undefinedDocumentError (k : Field) : String :=
  "Value for argument \"data\" is not a valid Firestore document. Cannot use " ++
    "\"undefined\" as a Firestore value (found in field \"" ++ k.key ++ "\")." ++ ignoreHint

/-- Message of the error `update` raises for a field whose value is `undefined`. -/
def undefinedValueError (k : Field) : String :=
  updateUsage ++ " Value for argument \"dataOrField\" is not a valid Firestore value. " ++
    "Cannot use \"undefined\" as a Firestore value (found in field \"" ++ k.key ++ "\")." ++
    ignoreHint

/-- Message of the error `update` raises for an `undefined` element of `arrayUnion`. -/
def undefinedElementError (i : Nat) : String :=
  updateUsage ++ " Element at index " ++ toString i ++ " is not a valid array element. " ++
    "Cannot use \"undefined\" as a Firestore value." ++ ignoreHint

/-- Message of the error `update` raises for an element of `arrayUnion` that is an
array. -/
def nestedArrayError (i : Nat) : String :=
  updateUsage ++ " Element at index " ++ toString i ++ " is not a valid array element. " ++
    "Nested arrays are not supported."

/-- Message of the error raised by `update` when the document does not exist. -/
def notFoundError (s : Store) (id : String) : String :=
  "5 NOT_FOUND: No document to update: " ++ s.path id

/-- Message of the error raised by `add` when the identifier is taken. -/
def alreadyExistsError (s : Store) (id : String) : String :=
  "6 ALREADY_EXISTS: Document already exists: " ++ s.path id

/-- Look up a document by identifier. -/
def lookupDoc (docs : List (String × Doc)) (id : String) : Option Doc :=
  match docs with
  | [] => none
  | (k, d) :: rest => if k = id then some d else lookupDoc rest id

/-- Replace the data of the document with the given identifier. -/
def replaceDoc (docs : List (String × Doc)) (id : String) (d : Doc) : List (String × Doc) :=
  match docs with
  | [] => []
  | (k, d') :: rest => if k = id then (k, d) :: rest else (k, d') :: replaceDoc rest id d

/-- A value the client accepts as an array element: a scalar. -/
def arrayElement (v : Value) : Option Scalar :=
  match v with
  | Value.scalar x => some x
  | _ => none

/-- Client-side validation of the elements of an `arrayUnion`, from index `i` on: the
first element that is `undefined` or an array raises. -/
def validateElements (i : Nat) (es : List Value) : Except String Unit :=
  match es with
  | [] => Except.ok ()
  | Value.undefined :: _ => Except.error (undefinedElementError i)
  | Value.arr _ :: _ => Except.error (nestedArrayError i)
  | Value.scalar _ :: rest => validateElements (i + 1) rest

/-- Client-side validation of one field of `update` data. The `arrayUnion` sentinel is
built without checks; its elements are validated here, when `update` is called. -/
def FieldInput.validate (w : FieldInput) (k : Field) : Except String Unit :=
  match w with
  | FieldInput.plain Value.undefined => Except.error (undefinedValueError k)
  | FieldInput.plain _ => Except.ok ()
  | FieldInput.increment _ => Except.ok ()
  | FieldInput.arrayUnion es => validateElements 0 es

/-- Client-side validation of `update` data: the first invalid field raises. -/
def validateUpdate (data : List (Field × FieldInput)) : Except String Unit :=
  match data with
  | [] => Except.ok ()
  | (k, w) :: rest =>
    match w.validate k with
    | Except.error e => Except.error e
    | Except.ok _ => validateUpdate rest

/-- Client-side validation of the data of `add`: the first field whose value is
`undefined` raises. -/
def validateDocument (data : List (Field × Value)) : Except String Unit :=
  match data with
  | [] => Except.ok ()
  | (k, Value.undefined) :: _ => Except.error (undefinedDocumentError k)
  | _ :: rest => validateDocument rest

/-- Array union: the elements not yet present are appended, in order. -/
def unionAppend (xs : List Scalar) (es : List Scalar) : List Scalar :=
  es.foldl (fun acc e => if e ∈ acc then acc else acc ++ [e]) xs

/-- Effect of one field of `update` data on a document. `increment` adds to a numeric
field and sets any other (or absent) field to the operand; `arrayUnion` works on the
current array, or on the empty array when the field is absent or not an array. -/
def applyInput (d : Doc) (k : Field) (w : FieldInput) : Doc :=
  match w with
  | FieldInput.plain v => d.set k v
  | FieldInput.increment n =>
    match d.get k with
    | some (Value.scalar (Scalar.num m)) => d.set k (Value.scalar (Scalar.num (m + n)))
    | _ => d.set k (Value.scalar (Scalar.num n))
  | FieldInput.arrayUnion es =>
    match d.get k with
    | some (Value.arr xs) => d.set k (Value.arr (unionAppend xs (es.filterMap arrayElement)))
    | _ => d.set k (Value.arr (unionAppend [] (es.filterMap arrayElement)))

/-- Merge `update` data into a document, field by field. -/
def applyUpdate (d : Doc) (data : List (Field × FieldInput)) : Doc :=
  data.foldl (fun acc p => applyInput acc p.1 p.2) d

/-- The call `collection.doc(id).get()`: the snapshot data, `none` when the document
does not exist. -/
def Store.get (s : Store) (id : String) : Except String (Option Doc) :=
  if s.available then Except.ok (lookupDoc s.docs id) else Except.error unavailableError

/-- The call `collection.get()`. -/
def Store.getAll (s : Store) : Except String (List (String × Doc)) :=
  if s.available then Except.ok s.docs else Except.error unavailableError

/-- The call `collection.add(data)`, with `newId` the identifier the client generates.
Data with an `undefined` field is refused by the client. -/
def Store.add (s : Store) (newId : String) (data : List (Field × Value)) :
    Except String (String × Store) :=
  match validateDocument data with
  | Except.error e => Except.error e
  | Except.ok _ =>
    if !s.available then Except.error unavailableError
    else if (lookupDoc s.docs newId).isSome then Except.error (alreadyExistsError s newId)
    else Except.ok (newId, { s with docs := s.docs ++ [(newId, data)] })

/-- The call `collection.doc(id).update(data)`: a merge into an existing document;
it raises when the document does not exist. -/
def Store.update (s : Store) (id : String) (data : List (Field × FieldInput)) :
    Except String Store :=
  match validateUpdate data with
  | Except.error e => Except.error e
  | Except.ok _ =>
    if !s.available then Except.error unavailableError
    else
      match lookupDoc s.docs id with
      | none => Except.error (notFoundError s id)
      | some d => Except.ok { s with docs := replaceDoc s.docs id (applyUpdate d data) }

/-- Effect of a store call on the store, whatever it returns to its caller. -/
def Store.exec (s : Store) (c : Call) : Store :=
  match c with
  | Call.add newId data =>
    match s.add newId data with
    | Except.ok (_, s') => s'
    | Except.error _ => s
  | Call.getAll => s
  | Call.get _ => s
  | Call.update id data =>
    match s.update id data with
    | Except.ok s' => s'
    | Except.error _ => s

/-! ## Requests and responses -/

/-- The five keys the create and update handlers destructure from `req.body`; a key
the body does not have is `undefined`. -/
structure ItemBody where
  name : Value
  image : Value
  description : Value
  comments : Value
  subtitle : Value
  deriving DecidableEq, Repr

/-- JSON (or text) body of a response. -/
inductive Body
  | idMessage (id : String) (message : String)
  | message (message : String)
  | error (error : String)
  | success
  | item (id : String) (data : Doc)
  | items (all : List (String × Doc))
  | text (s : String)
  deriving DecidableEq, Repr

/-- An HTTP response: status code and body. -/
structure Response where
  status : Nat
  body : Body
  deriving DecidableEq, Repr

/-- What running a handler produces: the response, the store afterwards, and the store
calls issued, in order. -/
structure Outcome where
  response : Response
  store : Store
  calls : List Call
  deriving DecidableEq, Repr

/-- String leaves of a scalar. -/
def Scalar.strings (v : Scalar) : List String :=
  match v with
  | Scalar.str s => [s]
  | _ => []

/-- String leaves of a value. -/
def Value.strings (v : Value) : List String :=
  match v with
  | Value.undefined => []
  | Value.scalar x => x.strings
  | Value.arr xs => xs.flatMap Scalar.strings

/-- String leaves of a document. -/
def docStrings (d : Doc) : List String := d.flatMap (fun p => p.2.strings)

/-- The string values occurring in a response body. -/
def Body.strings (b : Body) : List String :=
  match b with
  | Body.idMessage id m => [id, m]
  | Body.message m => [m]
  | Body.error e => [e]
  | Body.success => []
  | Body.item id d => id :: docStrings d
  | Body.items all => all.flatMap (fun p => p.1 :: docStrings p.2)
  | Body.text s => [s]

/-- The text `t` occurs as a contiguous part of `s`. -/
def occursIn (t s : List Char) : Bool :=
  s.tails.any (fun u => u.take t.length == t)

/-- The body contains the text `t` inside one of its string values. -/
def Body.mentions (b : Body) (t : String) : Bool :=
  b.strings.any (fun s => occursIn t.toList s.toList)

/-! ## The handlers -/

/-- The object literal both the create and the update handler build from the five
destructured keys: every key is present, with `undefined` for a key the body lacks. -/
def bodyFields (body : ItemBody) : List (Field × Value) :=
  [(Field.name, body.name), (Field.image, body.image), (Field.description, body.description),
    (Field.comments, body.comments), (Field.subtitle, body.subtitle)]

/-- Handler of `POST /items`. `now` is the reading of `Timestamp.now()`, `newId` the
identifier the store generates for the new document. -/
def postItems (s : Store) (newId : String) (now : Nat) (body : ItemBody) : Outcome :=
  let newItem := bodyFields body ++ [(Field.createdAt, Value.scalar (Scalar.timestamp now))]
  match s.add newId newItem with
  | Except.ok (id, s') =>
    { response := ⟨201, Body.idMessage id "Item added successfully"⟩, store := s',
      calls := [Call.add newId newItem] }
  | Except.error e =>
    { response := ⟨500, Body.error e⟩, store := s, calls := [Call.add newId newItem] }

/-- Handler of `GET /items`. -/
def getItems (s : Store) : Outcome :=
  match s.getAll with
  | Except.ok all => { response := ⟨200, Body.items all⟩, store := s, calls := [Call.getAll] }
  | Except.error e => { response := ⟨500, Body.error e⟩, store := s, calls := [Call.getAll] }

/-- Handler of `GET /items/:id`. -/
def getItemById (s : Store) (id : String) : Outcome :=
  match s.get id with
  | Except.ok none =>
    { response := ⟨404, Body.message "Item not found"⟩, store := s, calls := [Call.get id] }
  | Except.ok (some data) =>
    { response := ⟨200, Body.item id data⟩, store := s, calls := [Call.get id] }
  | Except.error e => { response := ⟨500, Body.error e⟩, store := s, calls := [Call.get id] }

/-- The `updateData` object of the `PUT /items/:id` handler. -/
def updateData (now : Nat) (body : ItemBody) : List (Field × FieldInput) :=
  (bodyFields body).map (fun p => (p.1, FieldInput.plain p.2)) ++
    [(Field.updatedAt, FieldInput.plain (Value.scalar (Scalar.timestamp now)))]

/-- Handler of `PUT /items/:id`. -/
def putItem (s : Store) (id : String) (now : Nat) (body : ItemBody) : Outcome :=
  match s.update id (updateData now body) with
  | Except.ok s' =>
    { response := ⟨200, Body.message "Item updated successfully"⟩, store := s',
      calls := [Call.update id (updateData now body)] }
  | Except.error e =>
    { response := ⟨500, Body.error e⟩, store := s,
      calls := [Call.update id (updateData now body)] }

/-- Handler of `PUT /items/:id/like`. -/
def putLike (s : Store) (id : String) : Outcome :=
  let data := [(Field.likes, FieldInput.increment 1)]
  match s.update id data with
  | Except.ok s' => { response := ⟨200, Body.success⟩, store := s', calls := [Call.update id data] }
  | Except.error e =>
    { response := ⟨500, Body.error e⟩, store := s, calls := [Call.update id data] }

/-- Handler of `PUT /items/:id/comment`; `comment` is `req.body.comment`. -/
def putComment (s : Store) (id : String) (comment : Value) : Outcome :=
  let data := [(Field.comments, FieldInput.arrayUnion [comment])]
  match s.update id data with
  | Except.ok s' => { response := ⟨200, Body.success⟩, store := s', calls := [Call.update id data] }
  | Except.error e =>
    { response := ⟨500, Body.error e⟩, store := s, calls := [Call.update id data] }

/-- Handler of `DELETE /items/:itemId/comments/:commentIndex`. The route parameter
`commentIndex` is text. In the test
`commentIndex < 0 || commentIndex >= itemData.comments.length` the right operand is
evaluated only when the left one is false. Reading `length` of a missing or `null`
comments field, or calling `splice` on a value that is not an array, raises a
`TypeError`, which the handler answers with 500; the `length` of a number, boolean or
timestamp is `undefined`, and a comparison with it is false. -/
def deleteComment (s : Store) (itemId : String) (commentIndex : String) : Outcome :=
  let failure : Response := ⟨500, Body.error "Error deleting comment"⟩
  match s.get itemId with
  | Except.error _ => { response := failure, store := s, calls := [Call.get itemId] }
  | Except.ok none =>
    { response := ⟨404, Body.error "Item not found"⟩, store := s, calls := [Call.get itemId] }
  | Except.ok (some itemData) =>
    let invalid : Response := ⟨400, Body.error "Invalid comment index"⟩
    if jsLt (stringToNumber commentIndex) 0 then
      { response := invalid, store := s, calls := [Call.get itemId] }
    else
      match itemData.get Field.comments with
      | none => { response := failure, store := s, calls := [Call.get itemId] }
      | some Value.undefined => { response := failure, store := s, calls := [Call.get itemId] }
      | some (Value.scalar Scalar.null) =>
        { response := failure, store := s, calls := [Call.get itemId] }
      | some (Value.scalar (Scalar.str t)) =>
        if jsGe (stringToNumber commentIndex) (utf16Length t) then
          { response := invalid, store := s, calls := [Call.get itemId] }
        else { response := failure, store := s, calls := [Call.get itemId] }
      | some (Value.scalar _) => { response := failure, store := s, calls := [Call.get itemId] }
      | some (Value.arr comments) =>
        if jsGe (stringToNumber commentIndex) comments.length then
          { response := invalid, store := s, calls := [Call.get itemId] }
        else
          let data :=
            [(Field.comments,
              FieldInput.plain (Value.arr (splice comments (stringToNumber commentIndex) 1)))]
          match s.update itemId data with
          | Except.ok s' =>
            { response := ⟨200, Body.message "Comment deleted successfully"⟩, store := s',
              calls := [Call.get itemId, Call.update itemId data] }
          | Except.error _ =>
            { response := failure, store := s,
              calls := [Call.get itemId, Call.update itemId data] }

/-- Handler of `GET /`. -/
def getRoot (s : Store) : Outcome :=
  { response := ⟨200, Body.text "Backend is running! 🚀"⟩, store := s, calls := [] }

/-! ## Notions used to state the properties -/

/-- The `likes` counter of a document: its numeric value, zero when absent. -/
def likesOf (d : Doc) : Int :=
  match d.get Field.likes with
  | some (Value.scalar (Scalar.num n)) => n
  | _ => 0

/-- The `likes` counter of the item with the given identifier. -/
def Store.likes (s : Store) (id : String) : Int :=
  match lookupDoc s.docs id with
  | some d => likesOf d
  | none => 0

/-- The keys of the request body that carry a value. -/
def suppliedKeys (body : ItemBody) : List Field :=
  ((bodyFields body).filter (fun p => decide (p.2 ≠ Value.undefined))).map Prod.fst

/-- A schedule of the store calls of several requests: each step takes the next call
of one of the requests, until all of them have issued all their calls. -/
inductive Interleaving : List (List Call) → List Call → Prop
  | done (reqs : List (List Call)) (h : ∀ r ∈ reqs, r = []) : Interleaving reqs []
  | step (pre : List (List Call)) (c : Call) (r : List Call) (post : List (List Call))
      (tr : List Call) (h : Interleaving (pre ++ r :: post) tr) :
      Interleaving (pre ++ (c :: r) :: post) (c :: tr)

/-- Run a schedule of store calls, each one atomically. -/
def runCalls (s : Store) (tr : List Call) : Store := tr.foldl Store.exec s

/-! ## Sample data -/

/-- A collection with one item that has a name and three comments. -/
def sampleStore : Store :=
  { docs := [("cat1", [(Field.name, Value.scalar (Scalar.str "Tom")),
      (Field.comments,
        Value.arr [Scalar.str "x", Scalar.str "y", Scalar.str "z"])])],
    available := true,
    projectId := "cat-paws" }

/-- The data of the item of `sampleStore`. -/
def sampleDoc : Doc :=
  [(Field.name, Value.scalar (Scalar.str "Tom")),
    (Field.comments, Value.arr [Scalar.str "x", Scalar.str "y", Scalar.str "z"])]

/-- A request body that supplies all five keys. -/
def fullBody : ItemBody :=
  { name := Value.scalar (Scalar.str "Felix"),
    image := Value.scalar (Scalar.str "felix.png"),
    description := Value.scalar (Scalar.str "a cat"),
    comments := Value.arr [],
    subtitle := Value.scalar (Scalar.str "new") }

/-- A request body that supplies only `subtitle`. -/
def subtitleBody : ItemBody :=
  { name := Value.undefined,
    image := Value.undefined,
    description := Value.undefined,
    comments := Value.undefined,
    subtitle := Value.scalar (Scalar.str "new") }

/-- A collection with one item whose comments are `["a","b"]`. -/
def abStore : Store :=
  { docs := [("cat1", [(Field.comments, Value.arr [Scalar.str "a", Scalar.str "b"])])],
    available := true,
    projectId := "cat-paws" }

/-! ## Decimal numerals are read back as the integer they denote -/

theorem digitChar_isDigit (k : Nat) (h : k < 10) :
    (Nat.digitChar k).isDigit = true ∧ (Nat.digitChar k).toNat - 48 = k := by
  interval_cases k <;> decide

theorem decValue_append_singleton (pre : List Char) (d : Char) :
    decValue (pre ++ [d]) = 10 * decValue pre + (d.toNat - 48) := by
  simp [decValue, List.foldl_append]

theorem toDigitsCore_spec (fuel : Nat) : ∀ (n : Nat) (ds : List Char), n < fuel →
    ∃ pre, Nat.toDigitsCore 10 fuel n ds = pre ++ ds ∧ pre ≠ [] ∧
      (∀ c ∈ pre, c.isDigit = true) ∧ decValue pre = n := by
  induction fuel with
  | zero => intro n ds h; omega
  | succ fuel ih =>
    intro n ds h
    have hd := digitChar_isDigit (n % 10) (Nat.mod_lt n (by decide))
    by_cases h0 : n / 10 = 0
    · refine ⟨[Nat.digitChar (n % 10)], ?_, by simp, ?_, ?_⟩
      · simp [Nat.toDigitsCore, h0]
      · intro c hc
        simp only [List.mem_singleton] at hc
        rw [hc]; exact hd.1
      · have := decValue_append_singleton [] (Nat.digitChar (n % 10))
        simp only [List.nil_append] at this
        rw [this, hd.2]
        simp only [decValue, List.foldl_nil]
        omega
    · have hlt : n / 10 < fuel := by omega
      obtain ⟨pre, hpre, _, hdig, hval⟩ := ih (n / 10) (Nat.digitChar (n % 10) :: ds) hlt
      refine ⟨pre ++ [Nat.digitChar (n % 10)], ?_, by simp, ?_, ?_⟩
      · simp [Nat.toDigitsCore, h0, hpre]
      · intro c hc
        rcases List.mem_append.1 hc with hc | hc
        · exact hdig c hc
        · simp only [List.mem_singleton] at hc
          rw [hc]; exact hd.1
      · rw [decValue_append_singleton, hval, hd.2]
        omega

theorem toDigits_spec (n : Nat) :
    Nat.toDigits 10 n ≠ [] ∧ (∀ c ∈ Nat.toDigits 10 n, c.isDigit = true) ∧
      decValue (Nat.toDigits 10 n) = n := by
  obtain ⟨pre, hpre, hne, hdig, hval⟩ := toDigitsCore_spec (n + 1) n [] (Nat.lt_succ_self n)
  simp only [List.append_nil] at hpre
  unfold Nat.toDigits
  rw [hpre]
  exact ⟨hne, hdig, hval⟩

theorem isDigit_not_ws (c : Char) (h : c.isDigit = true) : isStrWhiteSpace c = false := by
  have h1 : 48 ≤ c.toNat ∧ c.toNat ≤ 57 := by
    simp only [Char.isDigit, Bool.and_eq_true, decide_eq_true_eq] at h
    exact ⟨h.1, h.2⟩
  simp only [isStrWhiteSpace, decide_eq_false_iff_not]
  omega

theorem trimWS_eq (l : List Char) (h₁ : ∀ c, l.head? = some c → isStrWhiteSpace c = false)
    (h₂ : ∀ c, l.getLast? = some c → isStrWhiteSpace c = false) : trimWS l = l := by
  have e1 : l.dropWhile isStrWhiteSpace = l := by
    cases l with
    | nil => rfl
    | cons a t => simp [List.dropWhile, h₁ a rfl]
  have e2 : l.reverse.dropWhile isStrWhiteSpace = l.reverse := by
    cases hr : l.reverse with
    | nil => rfl
    | cons a t =>
      have : l.getLast? = some a := by
        rw [List.getLast?_eq_head?_reverse, hr]; rfl
      simp [List.dropWhile, h₂ a this]
  simp [trimWS, e1, e2]

theorem parseUnsignedDecimal_digits (neg : Bool) (cs : List Char) (hne : cs ≠ [])
    (hd : ∀ c ∈ cs, c.isDigit = true) :
    parseUnsignedDecimal neg cs = JSNum.fin neg (decValue cs) 0 := by
  have hinf : ¬ cs = ['I', 'n', 'f', 'i', 'n', 'i', 't', 'y'] := by
    intro h
    have := hd 'I' (by rw [h]; decide)
    exact absurd this (by decide)
  have ht : cs.takeWhile Char.isDigit = cs := List.takeWhile_eq_self_iff.2 hd
  have hdr : cs.dropWhile Char.isDigit = [] := List.dropWhile_eq_nil_iff.2 hd
  simp [parseUnsignedDecimal, hinf, ht, hdr, hne, decimal]

theorem stringToNumber_digits (cs : List Char) (hne : cs ≠ [])
    (hd : ∀ c ∈ cs, c.isDigit = true) :
    stringToNumber (String.mk cs) = JSNum.fin false (decValue cs) 0 := by
  have htrim : trimWS cs = cs := by
    apply trimWS_eq
    · intro c hc
      exact isDigit_not_ws c (hd c (List.mem_of_mem_head? hc))
    · intro c hc
      exact isDigit_not_ws c (hd c (List.mem_of_mem_getLast? hc))
  have hnot : ∀ (a b : Char), b.isDigit = false → cs.take 2 ≠ [a, b] := by
    intro a b hb h
    have hmem : b ∈ cs := List.mem_of_mem_take (by rw [h]; simp)
    rw [hd b hmem] at hb
    exact Bool.noConfusion hb
  have hhead : ∀ a : Char, a.isDigit = false → cs.head? ≠ some a := by
    intro a ha h
    rw [hd a (List.mem_of_mem_head? h)] at ha
    exact Bool.noConfusion ha
  have h1 := hnot '0' 'x' (by decide)
  have h2 := hnot '0' 'X' (by decide)
  have h3 := hnot '0' 'o' (by decide)
  have h4 := hnot '0' 'O' (by decide)
  have h5 := hnot '0' 'b' (by decide)
  have h6 := hnot '0' 'B' (by decide)
  have h7 := hhead '+' (by decide)
  have h8 := hhead '-' (by decide)
  simp only [stringToNumber, String.toList, htrim]
  simp only [hne, h1, h2, h3, h4, h5, h6, h7, h8, or_self, if_false]
  exact parseUnsignedDecimal_digits false cs hne hd

theorem stringToNumber_neg_digits (cs : List Char) (hne : cs ≠ [])
    (hd : ∀ c ∈ cs, c.isDigit = true) :
    stringToNumber (String.mk ('-' :: cs)) = JSNum.fin true (decValue cs) 0 := by
  have htrim : trimWS ('-' :: cs) = '-' :: cs := by
    apply trimWS_eq
    · intro c hc
      simp only [List.head?_cons, Option.some.injEq] at hc
      rw [← hc]; decide
    · intro c hc
      obtain ⟨a, t, rfl⟩ := List.exists_cons_of_ne_nil hne
      rw [List.getLast?_cons_cons] at hc
      exact isDigit_not_ws c (hd c (List.mem_of_mem_getLast? hc))
  simp only [stringToNumber, String.toList, htrim]
  simp
  exact parseUnsignedDecimal_digits true cs hne hd

theorem stringToNumber_natToString (i : Nat) :
    stringToNumber (toString i) = JSNum.fin false i 0 := by
  obtain ⟨hne, hd, hv⟩ := toDigits_spec i
  have : toString i = String.mk (Nat.toDigits 10 i) := rfl
  rw [this, stringToNumber_digits _ hne hd, hv]

theorem stringToNumber_negSuccToString (m : Nat) :
    stringToNumber (toString (Int.negSucc m)) = JSNum.fin true (m + 1) 0 := by
  obtain ⟨hne, hd, hv⟩ := toDigits_spec (m + 1)
  have : toString (Int.negSucc m) = String.mk ('-' :: Nat.toDigits 10 (m + 1)) := rfl
  rw [this, stringToNumber_neg_digits _ hne hd, hv]

/-! ## Index validation and `splice` on decimal numerals -/

theorem jsLt_nat (i n : Nat) : jsLt (stringToNumber (toString i)) n = decide (i < n) := by
  simp [stringToNumber_natToString, jsLt, JSNum.isLessThan]

theorem jsGe_nat (i n : Nat) : jsGe (stringToNumber (toString i)) n = decide (n ≤ i) := by
  by_cases h : n ≤ i
  · have : ¬ i < n := by omega
    simp [stringToNumber_natToString, jsGe, JSNum.isLessThan, h, this]
  · have : i < n := by omega
    simp [stringToNumber_natToString, jsGe, JSNum.isLessThan, h, this]

theorem jsLt_negSucc (m : Nat) :
    jsLt (stringToNumber (toString (Int.negSucc m))) 0 = true := by
  simp [stringToNumber_negSuccToString, jsLt, JSNum.isLessThan]

theorem splice_nat {α : Type} (xs : List α) (i : Nat) (h : i < xs.length) :
    splice xs (stringToNumber (toString i)) 1 = xs.take i ++ xs.drop (i + 1) := by
  have h1 : min i xs.length = i := by omega
  have h2 : min 1 (xs.length - i) = 1 := by omega
  have h3 : ¬ ((i : Int) < 0) := by omega
  simp [splice, stringToNumber_natToString, JSNum.toIntegerOrInfinity, h1, h2, h3]

/-! ## Documents and the collection -/

theorem Doc.get_set_same (d : Doc) (k : Field) (v : Value) : (d.set k v).get k = some v := by
  induction d with
  | nil => simp [Doc.set, Doc.get]
  | cons p rest ih =>
    obtain ⟨k', v'⟩ := p
    by_cases h : k' = k
    · simp [Doc.set, Doc.get, h]
    · simp [Doc.set, Doc.get, h, ih]

theorem Doc.get_set_other (d : Doc) (k k₂ : Field) (v : Value) (hk : k₂ ≠ k) :
    (d.set k v).get k₂ = d.get k₂ := by
  induction d with
  | nil => simp [Doc.set, Doc.get, Ne.symm hk]
  | cons p rest ih =>
    obtain ⟨k', v'⟩ := p
    by_cases h : k' = k
    · subst h
      simp [Doc.set, Doc.get, Ne.symm hk]
    · by_cases h2 : k' = k₂
      · subst h2
        simp [Doc.set, Doc.get, h]
      · simp [Doc.set, Doc.get, h, h2, ih]

theorem lookupDoc_replaceDoc_same (docs : List (String × Doc)) (id : String) (d d' : Doc)
    (h : lookupDoc docs id = some d) : lookupDoc (replaceDoc docs id d') id = some d' := by
  induction docs with
  | nil => simp [lookupDoc] at h
  | cons p rest ih =>
    obtain ⟨k, e⟩ := p
    by_cases hk : k = id
    · simp [replaceDoc, lookupDoc, hk]
    · simp only [lookupDoc, hk, if_false] at h
      simp [replaceDoc, lookupDoc, hk, ih h]

theorem lookupDoc_replaceDoc_other (docs : List (String × Doc)) (id other : String) (d' : Doc)
    (h : other ≠ id) : lookupDoc (replaceDoc docs id d') other = lookupDoc docs other := by
  induction docs with
  | nil => simp [replaceDoc, lookupDoc]
  | cons p rest ih =>
    obtain ⟨k, e⟩ := p
    by_cases hk : k = id
    · subst hk
      simp [replaceDoc, lookupDoc, Ne.symm h]
    · by_cases hk2 : k = other
      · subst hk2
        simp [replaceDoc, lookupDoc, hk]
      · simp [replaceDoc, lookupDoc, hk, hk2, ih]

theorem Store.update_plain (s : Store) (id : String) (d : Doc) (k : Field) (v : Value)
    (hav : s.available = true) (hdoc : lookupDoc s.docs id = some d)
    (hv : v ≠ Value.undefined) :
    s.update id [(k, FieldInput.plain v)] =
      Except.ok { s with docs := replaceDoc s.docs id (d.set k v) } := by
  cases v with
  | undefined => exact absurd rfl hv
  | scalar x => simp [Store.update, validateUpdate, FieldInput.validate, hav, hdoc, applyUpdate, applyInput]
  | arr xs => simp [Store.update, validateUpdate, FieldInput.validate, hav, hdoc, applyUpdate, applyInput]

/-! ## Delete a comment by index -/

/-- C1: for an existing item whose comments list has length `n` and an integer index
`i` with `0 ≤ i < n` (sent as its decimal numeral), the DELETE handler reads the item,
writes back the comments with the element at position `i` removed and the others in
their original order (length `n - 1`), leaves every other field and every other item
as it was, and responds 200 with a message. -/
theorem deleteComment_in_range (s : Store) (itemId : String) (itemData : Doc)
    (comments : List Scalar) (i : Nat) (hav : s.available = true)
    (hdoc : lookupDoc s.docs itemId = some itemData)
    (hcs : itemData.get Field.comments = some (Value.arr comments))
    (hi : i < comments.length) :
    (deleteComment s itemId (toString i)).response =
        ⟨200, Body.message "Comment deleted successfully"⟩ ∧
      (deleteComment s itemId (toString i)).calls =
        [Call.get itemId, Call.update itemId [(Field.comments,
          FieldInput.plain (Value.arr (comments.take i ++ comments.drop (i + 1))))]] ∧
      lookupDoc (deleteComment s itemId (toString i)).store.docs itemId =
        some (itemData.set Field.comments
          (Value.arr (comments.take i ++ comments.drop (i + 1)))) ∧
      (itemData.set Field.comments
          (Value.arr (comments.take i ++ comments.drop (i + 1)))).get Field.comments =
        some (Value.arr (comments.take i ++ comments.drop (i + 1))) ∧
      (∀ k, k ≠ Field.comments →
        (itemData.set Field.comments
          (Value.arr (comments.take i ++ comments.drop (i + 1)))).get k = itemData.get k) ∧
      (∀ other, other ≠ itemId →
        lookupDoc (deleteComment s itemId (toString i)).store.docs other =
          lookupDoc s.docs other) ∧
      (comments.take i ++ comments.drop (i + 1)).length = comments.length - 1 ∧
      comments.take i ++ comments.drop (i + 1) = comments.eraseIdx i := by
  have hlt : jsLt (stringToNumber (toString i)) 0 = false := by
    rw [jsLt_nat]; simp
  have hge : jsGe (stringToNumber (toString i)) comments.length = false := by
    rw [jsGe_nat]; simp; omega
  have hupd := Store.update_plain s itemId itemData Field.comments
    (Value.arr (comments.take i ++ comments.drop (i + 1))) hav hdoc (by simp)
  have hout : deleteComment s itemId (toString i) =
      { response := ⟨200, Body.message "Comment deleted successfully"⟩,
        store := { s with docs := replaceDoc s.docs itemId (itemData.set Field.comments
          (Value.arr (comments.take i ++ comments.drop (i + 1)))) },
        calls := [Call.get itemId, Call.update itemId [(Field.comments,
          FieldInput.plain (Value.arr (comments.take i ++ comments.drop (i + 1))))]] } := by
    simp only [deleteComment, Store.get, hav, if_true, hdoc, hcs, hlt, hge,
      splice_nat comments i hi, hupd]
    simp
  rw [hout]
  refine ⟨rfl, rfl, ?_, ?_, ?_, ?_, ?_, ?_⟩
  · exact lookupDoc_replaceDoc_same _ _ _ _ hdoc
  · exact Doc.get_set_same _ _ _
  · intro k hk
    exact Doc.get_set_other _ _ _ _ hk
  · intro other ho
    exact lookupDoc_replaceDoc_other _ _ _ _ ho
  · simp [List.length_take, List.length_drop]; omega
  · rw [List.eraseIdx_eq_take_drop_succ]

/-- Witness of C1 on the sample item: deleting index 1 of `["x","y","z"]`. -/
theorem deleteComment_in_range_witness :
    (deleteComment sampleStore "cat1" (toString 1)).response =
        ⟨200, Body.message "Comment deleted successfully"⟩ ∧
      lookupDoc (deleteComment sampleStore "cat1" (toString 1)).store.docs "cat1" =
        some (sampleDoc.set Field.comments (Value.arr [Scalar.str "x", Scalar.str "z"])) := by
  have h := deleteComment_in_range sampleStore "cat1" sampleDoc
    [Scalar.str "x", Scalar.str "y", Scalar.str "z"] 1 rfl (by decide) (by decide) (by decide)
  exact ⟨h.1, h.2.2.1⟩

theorem deleteComment_of_out_of_range (s : Store) (itemId : String) (itemData : Doc)
    (comments : List Scalar) (i : Int) (hav : s.available = true)
    (hdoc : lookupDoc s.docs itemId = some itemData)
    (hcs : itemData.get Field.comments = some (Value.arr comments))
    (hi : i < 0 ∨ (comments.length : Int) ≤ i) :
    deleteComment s itemId (toString i) =
      { response := ⟨400, Body.error "Invalid comment index"⟩, store := s,
        calls := [Call.get itemId] } := by
  cases i with
  | ofNat m =>
    have e : toString (Int.ofNat m) = toString m := rfl
    simp only [Int.ofNat_eq_coe] at hi
    have hlt : jsLt (stringToNumber (toString m)) 0 = false := by
      rw [jsLt_nat]; simp
    have hge : jsGe (stringToNumber (toString m)) comments.length = true := by
      rw [jsGe_nat]; simp; omega
    rw [e]
    simp only [deleteComment, Store.get, hav, if_true, hdoc, hcs, hlt, hge]
    simp
  | negSucc m =>
    simp [deleteComment, Store.get, hav, hdoc, jsLt_negSucc]

/-- C2: for an existing item whose comments list has length `n` and an integer index
`i` with `i < 0` or `i ≥ n` (sent as its decimal numeral), the DELETE handler responds
400, its only store call is the read of the item (no update is issued), and the store
is unchanged. -/
theorem deleteComment_out_of_range (s : Store) (itemId : String) (itemData : Doc)
    (comments : List Scalar) (i : Int) (hav : s.available = true)
    (hdoc : lookupDoc s.docs itemId = some itemData)
    (hcs : itemData.get Field.comments = some (Value.arr comments))
    (hi : i < 0 ∨ (comments.length : Int) ≤ i) :
    (deleteComment s itemId (toString i)).response.status = 400 ∧
      (deleteComment s itemId (toString i)).calls = [Call.get itemId] ∧
      (deleteComment s itemId (toString i)).store = s := by
  rw [deleteComment_of_out_of_range s itemId itemData comments i hav hdoc hcs hi]
  exact ⟨rfl, rfl, rfl⟩

/-- Witness of C2 on the sample item: index 3 of a three-element list. -/
theorem deleteComment_out_of_range_witness :
    (deleteComment sampleStore "cat1" (toString (3 : Int))).response.status = 400 ∧
      (deleteComment sampleStore "cat1" (toString (3 : Int))).calls = [Call.get "cat1"] ∧
      (deleteComment sampleStore "cat1" (toString (3 : Int))).store = sampleStore :=
  deleteComment_out_of_range sampleStore "cat1" sampleDoc
    [Scalar.str "x", Scalar.str "y", Scalar.str "z"] 3 rfl (by decide) (by decide) (by decide)

/-- C9: on the item with comments `["x","y","z"]`, the non-numeric index `"abc"` and the
fractional index `"1.5"` both pass the index check; the handler removes the comment at
position 0, respectively 1, writes the shortened list to the store and responds 200
instead of 400. -/
theorem deleteComment_text_index_not_rejected :
    (deleteComment sampleStore "cat1" "abc").response =
        ⟨200, Body.message "Comment deleted successfully"⟩ ∧
      (deleteComment sampleStore "cat1" "abc").calls =
        [Call.get "cat1", Call.update "cat1"
          [(Field.comments, FieldInput.plain (Value.arr [Scalar.str "y", Scalar.str "z"]))]] ∧
      lookupDoc (deleteComment sampleStore "cat1" "abc").store.docs "cat1" =
        some (sampleDoc.set Field.comments (Value.arr [Scalar.str "y", Scalar.str "z"])) ∧
      (deleteComment sampleStore "cat1" "1.5").response =
        ⟨200, Body.message "Comment deleted successfully"⟩ ∧
      lookupDoc (deleteComment sampleStore "cat1" "1.5").store.docs "cat1" =
        some (sampleDoc.set Field.comments (Value.arr [Scalar.str "x", Scalar.str "z"])) := by
  decide

/-- C10, as stated, fails: for the out-of-bounds index 3 on the item with comments
`["x","y","z"]` the handler responds 400 and no string of the body contains `3`. -/
theorem deleteComment_error_omits_index :
    (deleteComment sampleStore "cat1" (toString 3)).response.status = 400 ∧
      (deleteComment sampleStore "cat1" (toString 3)).response.body.mentions (toString 3)
        = false := by
  decide

/-- C10, amended: for an existing item whose comments list has length `n` and an
out-of-bounds integer index `i` (`i < 0` or `i ≥ n`, sent as its decimal numeral), the
response of the DELETE handler is 400 with the fixed body
`{ error: "Invalid comment index" }`, the same whatever index was supplied. -/
theorem deleteComment_invalid_body (s : Store) (itemId : String) (itemData : Doc)
    (comments : List Scalar) (i : Int) (hav : s.available = true)
    (hdoc : lookupDoc s.docs itemId = some itemData)
    (hcs : itemData.get Field.comments = some (Value.arr comments))
    (hi : i < 0 ∨ (comments.length : Int) ≤ i) :
    (deleteComment s itemId (toString i)).response =
      ⟨400, Body.error "Invalid comment index"⟩ := by
  rw [deleteComment_of_out_of_range s itemId itemData comments i hav hdoc hcs hi]

/-- Witness of amended C10: index 7 on the sample item. -/
theorem deleteComment_invalid_body_witness :
    (deleteComment sampleStore "cat1" (toString (7 : Int))).response =
      ⟨400, Body.error "Invalid comment index"⟩ :=
  deleteComment_invalid_body sampleStore "cat1" sampleDoc
    [Scalar.str "x", Scalar.str "y", Scalar.str "z"] 7 rfl (by decide) (by decide) (by decide)

/-! ## Read one item -/

/-- C3: when the store reports that no document with the identifier exists, the
handler of `GET /items/:id` responds 404 with a not-found message; when the document
exists it responds 200 with the identifier and the fields of the document. The handler
is a total function, so a response is produced in both cases, and the store is left as
it was. -/
theorem getItemById_absent_or_present (s : Store) (id : String)
    (hav : s.available = true) :
    (lookupDoc s.docs id = none →
        getItemById s id =
          { response := ⟨404, Body.message "Item not found"⟩, store := s,
            calls := [Call.get id] }) ∧
      (∀ data, lookupDoc s.docs id = some data →
        getItemById s id =
          { response := ⟨200, Body.item id data⟩, store := s, calls := [Call.get id] }) := by
  constructor
  · intro h
    simp [getItemById, Store.get, hav, h]
  · intro data h
    simp [getItemById, Store.get, hav, h]

/-- Witness of C3: an absent and a present identifier on the sample collection. -/
theorem getItemById_absent_or_present_witness :
    getItemById sampleStore "ghost" =
        { response := ⟨404, Body.message "Item not found"⟩, store := sampleStore,
          calls := [Call.get "ghost"] } ∧
      getItemById sampleStore "cat1" =
        { response := ⟨200, Body.item "cat1" sampleDoc⟩, store := sampleStore,
          calls := [Call.get "cat1"] } :=
  ⟨(getItemById_absent_or_present sampleStore "ghost" rfl).1 (by decide),
    (getItemById_absent_or_present sampleStore "cat1" rfl).2 sampleDoc (by decide)⟩

/-! ## Full update -/

/-- C4: a full update of an identifier the collection does not hold, with a body that
supplies all five keys, is answered 500 with the message of the store error (not 404);
no document is created. -/
theorem putItem_missing_item_is_500 :
    lookupDoc sampleStore.docs "ghost" = none ∧
      (putItem sampleStore "ghost" 7 fullBody).response =
        ⟨500, Body.error (notFoundError sampleStore "ghost")⟩ ∧
      (putItem sampleStore "ghost" 7 fullBody).store = sampleStore := by
  decide

theorem FieldInput.validate_plain (v : Value) (k : Field) (hv : v ≠ Value.undefined) :
    (FieldInput.plain v).validate k = Except.ok () := by
  cases v with
  | undefined => exact absurd rfl hv
  | scalar x => rfl
  | arr xs => rfl

/-- C5, as stated, fails: for a body that supplies only `subtitle`, the data passed to
the store's update has all five keys and `updatedAt`, not just `subtitle` and
`updatedAt`; on the sample item the store refuses the data, the handler responds 500
and `updatedAt` is not set. -/
theorem putItem_partial_body_keys :
    suppliedKeys subtitleBody = [Field.subtitle] ∧
      (putItem sampleStore "cat1" 7 subtitleBody).calls =
        [Call.update "cat1"
          [(Field.name, FieldInput.plain Value.undefined),
            (Field.image, FieldInput.plain Value.undefined),
            (Field.description, FieldInput.plain Value.undefined),
            (Field.comments, FieldInput.plain Value.undefined),
            (Field.subtitle, FieldInput.plain (Value.scalar (Scalar.str "new"))),
            (Field.updatedAt, FieldInput.plain (Value.scalar (Scalar.timestamp 7)))]] ∧
      (updateData 7 subtitleBody).map Prod.fst ≠
        suppliedKeys subtitleBody ++ [Field.updatedAt] ∧
      (putItem sampleStore "cat1" 7 subtitleBody).response.status = 500 ∧
      (putItem sampleStore "cat1" 7 subtitleBody).store = sampleStore := by
  decide

/-- C5, amended: the data `PUT /items/:id` passes to the store's update always has the
five keys `name`, `image`, `description`, `comments`, `subtitle` (a key the body lacks
carrying `undefined`) plus `updatedAt`; for an existing item and a body supplying all
five, the handler responds 200, the five fields take the supplied values, `updatedAt`
is set to the server time, and every other stored field keeps its previous value. -/
theorem putItem_full_body_merge (s : Store) (id : String) (now : Nat) (body : ItemBody)
    (itemData : Doc) (hav : s.available = true)
    (hdoc : lookupDoc s.docs id = some itemData)
    (h1 : body.name ≠ Value.undefined) (h2 : body.image ≠ Value.undefined)
    (h3 : body.description ≠ Value.undefined) (h4 : body.comments ≠ Value.undefined)
    (h5 : body.subtitle ≠ Value.undefined) :
    (∀ b : ItemBody, (putItem s id now b).calls =
        [Call.update id [(Field.name, FieldInput.plain b.name),
          (Field.image, FieldInput.plain b.image),
          (Field.description, FieldInput.plain b.description),
          (Field.comments, FieldInput.plain b.comments),
          (Field.subtitle, FieldInput.plain b.subtitle),
          (Field.updatedAt, FieldInput.plain (Value.scalar (Scalar.timestamp now)))]]) ∧
      (putItem s id now body).response = ⟨200, Body.message "Item updated successfully"⟩ ∧
      ∃ stored, lookupDoc (putItem s id now body).store.docs id = some stored ∧
        stored.get Field.name = some body.name ∧
        stored.get Field.image = some body.image ∧
        stored.get Field.description = some body.description ∧
        stored.get Field.comments = some body.comments ∧
        stored.get Field.subtitle = some body.subtitle ∧
        stored.get Field.updatedAt = some (Value.scalar (Scalar.timestamp now)) ∧
        stored.get Field.createdAt = itemData.get Field.createdAt ∧
        stored.get Field.likes = itemData.get Field.likes := by
  refine ⟨?_, ?_⟩
  · intro b
    unfold putItem
    cases s.update id (updateData now b) <;> rfl
  · have hupd : s.update id (updateData now body) =
        Except.ok { s with
          docs := replaceDoc s.docs id (applyUpdate itemData (updateData now body)) } := by
      simp [Store.update, updateData, bodyFields, validateUpdate,
        FieldInput.validate_plain _ _ h1, FieldInput.validate_plain _ _ h2,
        FieldInput.validate_plain _ _ h3, FieldInput.validate_plain _ _ h4,
        FieldInput.validate_plain _ _ h5, FieldInput.validate, hav, hdoc]
    have hout : putItem s id now body =
        { response := ⟨200, Body.message "Item updated successfully"⟩,
          store := { s with
            docs := replaceDoc s.docs id (applyUpdate itemData (updateData now body)) },
          calls := [Call.update id (updateData now body)] } := by
      simp only [putItem, hupd]
    rw [hout]
    refine ⟨rfl, applyUpdate itemData (updateData now body),
      lookupDoc_replaceDoc_same _ _ _ _ hdoc, ?_⟩
    simp [applyUpdate, updateData, bodyFields, applyInput, Doc.get_set_same, Doc.get_set_other]

/-- Witness of amended C5: a full body on the sample item. -/
theorem putItem_full_body_merge_witness :
    (putItem sampleStore "cat1" 7 fullBody).response =
        ⟨200, Body.message "Item updated successfully"⟩ ∧
      ∃ stored, lookupDoc (putItem sampleStore "cat1" 7 fullBody).store.docs "cat1" =
          some stored ∧
        stored.get Field.subtitle = some (Value.scalar (Scalar.str "new")) ∧
        stored.get Field.updatedAt = some (Value.scalar (Scalar.timestamp 7)) := by
  obtain ⟨_, hr, stored, hs, _, _, _, _, h5, h6, _⟩ :=
    putItem_full_body_merge sampleStore "cat1" 7 fullBody sampleDoc rfl (by decide)
      (by decide) (by decide) (by decide) (by decide) (by decide)
  exact ⟨hr, stored, hs, h5, h6⟩

/-! ## Append a comment -/

/-- C6, as stated, fails: on the item with comments `["a","b"]`, appending `"a"` is
answered 200 and the stored comments stay `["a","b"]`; they do not become
`["a","b","a"]`. -/
theorem putComment_duplicate_not_appended :
    (putComment abStore "cat1" (Value.scalar (Scalar.str "a"))).response = ⟨200, Body.success⟩ ∧
      lookupDoc (putComment abStore "cat1" (Value.scalar (Scalar.str "a"))).store.docs "cat1" =
        some [(Field.comments, Value.arr [Scalar.str "a", Scalar.str "b"])] ∧
      lookupDoc (putComment abStore "cat1" (Value.scalar (Scalar.str "a"))).store.docs "cat1" ≠
        some [(Field.comments, Value.arr [Scalar.str "a", Scalar.str "b", Scalar.str "a"])] := by
  decide

/-- C6, amended: for an existing item with comments list `cs` and a string `c`, the
handler of `PUT /items/:id/comment` issues one update carrying `arrayUnion(c)` and
responds 200; afterwards the stored comments are `cs` followed by `c` when `c` does not
occur in `cs`, and `cs` unchanged when it does. Every other field keeps its value. -/
theorem putComment_array_union (s : Store) (id : String) (itemData : Doc)
    (cs : List Scalar) (c : String) (hav : s.available = true)
    (hdoc : lookupDoc s.docs id = some itemData)
    (hcs : itemData.get Field.comments = some (Value.arr cs)) :
    (putComment s id (Value.scalar (Scalar.str c))).response = ⟨200, Body.success⟩ ∧
      (putComment s id (Value.scalar (Scalar.str c))).calls =
        [Call.update id [(Field.comments, FieldInput.arrayUnion [Value.scalar (Scalar.str c)])]] ∧
      ∃ stored,
        lookupDoc (putComment s id (Value.scalar (Scalar.str c))).store.docs id = some stored ∧
        stored.get Field.comments =
          some (Value.arr (if Scalar.str c ∈ cs then cs else cs ++ [Scalar.str c])) ∧
        ∀ k, k ≠ Field.comments → stored.get k = itemData.get k := by
  have hupd : s.update id [(Field.comments, FieldInput.arrayUnion [Value.scalar (Scalar.str c)])] =
      Except.ok { s with
        docs := replaceDoc s.docs id (itemData.set Field.comments
          (Value.arr (if Scalar.str c ∈ cs then cs else cs ++ [Scalar.str c]))) } := by
    simp [Store.update, validateUpdate, FieldInput.validate, validateElements, arrayElement,
      hav, hdoc, applyUpdate, applyInput, hcs, unionAppend]
  have hout : putComment s id (Value.scalar (Scalar.str c)) =
      { response := ⟨200, Body.success⟩,
        store := { s with
          docs := replaceDoc s.docs id (itemData.set Field.comments
            (Value.arr (if Scalar.str c ∈ cs then cs else cs ++ [Scalar.str c]))) },
        calls := [Call.update id [(Field.comments, FieldInput.arrayUnion [Value.scalar (Scalar.str c)])]] } := by
    simp only [putComment, hupd]
  rw [hout]
  refine ⟨rfl, rfl, _, lookupDoc_replaceDoc_same _ _ _ _ hdoc, Doc.get_set_same _ _ _, ?_⟩
  intro k hk
  exact Doc.get_set_other _ _ _ _ hk

/-- Witness of amended C6: appending `"c"` to `["a","b"]`. -/
theorem putComment_array_union_witness :
    ∃ stored,
      lookupDoc (putComment abStore "cat1" (Value.scalar (Scalar.str "c"))).store.docs "cat1" =
        some stored ∧
      stored.get Field.comments =
        some (Value.arr [Scalar.str "a", Scalar.str "b", Scalar.str "c"]) := by
  obtain ⟨_, _, stored, hs, hc, _⟩ :=
    putComment_array_union abStore "cat1"
      [(Field.comments, Value.arr [Scalar.str "a", Scalar.str "b"])]
      [Scalar.str "a", Scalar.str "b"] "c" rfl (by decide) (by decide)
  exact ⟨stored, hs, by rw [hc]; decide⟩

/-! ## Increment likes -/

theorem Interleaving.length_and_mem {reqs : List (List Call)} {tr : List Call}
    (h : Interleaving reqs tr) :
    tr.length = (reqs.map List.length).sum ∧ ∀ x ∈ tr, ∃ r ∈ reqs, x ∈ r := by
  induction h with
  | done reqs hnil =>
    refine ⟨?_, by simp⟩
    have : ∀ n ∈ reqs.map List.length, n = 0 := by
      intro n hn
      obtain ⟨r, hr, rfl⟩ := List.mem_map.1 hn
      rw [hnil r hr]; rfl
    simp [List.sum_eq_zero this]
  | step pre c r post tr _ ih =>
    obtain ⟨hlen, hmem⟩ := ih
    constructor
    · simp only [List.map_append, List.map_cons, List.sum_append, List.sum_cons,
        List.length_cons] at hlen ⊢
      omega
    · intro x hx
      rcases List.mem_cons.1 hx with rfl | hx
      · exact ⟨x :: r, by simp, by simp⟩
      · obtain ⟨r0, hr0, hx0⟩ := hmem x hx
        rcases List.mem_append.1 hr0 with hp | hp
        · exact ⟨r0, by simp [hp], hx0⟩
        · rcases List.mem_cons.1 hp with rfl | hp
          · exact ⟨c :: r0, by simp, List.mem_cons_of_mem _ hx0⟩
          · exact ⟨r0, by simp [hp], hx0⟩

theorem Interleaving.of_replicate_singleton {N : Nat} {c : Call} {tr : List Call}
    (h : Interleaving (List.replicate N [c]) tr) : tr = List.replicate N c := by
  obtain ⟨hlen, hmem⟩ := h.length_and_mem
  rw [List.eq_replicate_iff]
  constructor
  · simpa using hlen
  · intro x hx
    obtain ⟨r, hr, hxr⟩ := hmem x hx
    rw [List.eq_of_mem_replicate hr] at hxr
    simpa using hxr

theorem likesOf_increment (d : Doc) :
    likesOf (applyInput d Field.likes (FieldInput.increment 1)) = likesOf d + 1 := by
  have key : ∀ o : Option Value, d.get Field.likes = o →
      likesOf (applyInput d Field.likes (FieldInput.increment 1)) = likesOf d + 1 := by
    intro o ho
    rcases o with _ | v
    · simp [applyInput, likesOf, ho, Doc.get_set_same]
    · rcases v with _ | x | xs
      · simp [applyInput, likesOf, ho, Doc.get_set_same]
      · cases x <;> simp [applyInput, likesOf, ho, Doc.get_set_same]
      · simp [applyInput, likesOf, ho, Doc.get_set_same]
  exact key _ rfl

theorem Store.exec_like (s : Store) (id : String) (d : Doc) (hav : s.available = true)
    (hdoc : lookupDoc s.docs id = some d) :
    (s.exec (Call.update id [(Field.likes, FieldInput.increment 1)])).available = true ∧
      lookupDoc (s.exec (Call.update id [(Field.likes, FieldInput.increment 1)])).docs id =
        some (applyInput d Field.likes (FieldInput.increment 1)) := by
  have hupd : s.update id [(Field.likes, FieldInput.increment 1)] =
      Except.ok { s with
        docs := replaceDoc s.docs id (applyInput d Field.likes (FieldInput.increment 1)) } := by
    simp [Store.update, validateUpdate, FieldInput.validate, hav, hdoc, applyUpdate]
  simp only [Store.exec, hupd]
  exact ⟨hav, lookupDoc_replaceDoc_same _ _ _ _ hdoc⟩

theorem runCalls_likes (N : Nat) : ∀ (s : Store) (id : String) (d : Doc),
    s.available = true → lookupDoc s.docs id = some d →
    (runCalls s (List.replicate N (Call.update id [(Field.likes, FieldInput.increment 1)]))).likes id
      = likesOf d + N := by
  induction N with
  | zero =>
    intro s id d _ hdoc
    simp [runCalls, Store.likes, hdoc]
  | succ N ih =>
    intro s id d hav hdoc
    obtain ⟨hav', hdoc'⟩ := Store.exec_like s id d hav hdoc
    have := ih _ id _ hav' hdoc'
    rw [likesOf_increment] at this
    simp only [runCalls, List.replicate_succ, List.foldl_cons] at this ⊢
    rw [this]
    push_cast
    ring

/-- C7: the handler of `PUT /items/:id/like` issues, whatever the store, exactly one
store call: an update carrying `increment(1)` on `likes`, and no read; the store it
leaves is the effect of that call. Hence for every `N` and every interleaving of the
store calls of `N` such requests on an existing item, the item's `likes` ends exactly
`N` higher than before (an absent counter counting as zero). -/
theorem putLike_no_lost_update (s : Store) (id : String) (d : Doc) (N : Nat)
    (tr : List Call) (hav : s.available = true) (hdoc : lookupDoc s.docs id = some d)
    (htr : Interleaving (List.replicate N (putLike s id).calls) tr) :
    (∀ st : Store, (putLike st id).calls =
        [Call.update id [(Field.likes, FieldInput.increment 1)]] ∧
      (putLike st id).store = runCalls st (putLike st id).calls) ∧
      (runCalls s tr).likes id = s.likes id + N := by
  have hcalls : ∀ st : Store, (putLike st id).calls =
        [Call.update id [(Field.likes, FieldInput.increment 1)]] ∧
      (putLike st id).store = runCalls st (putLike st id).calls := by
    intro st
    unfold putLike runCalls
    cases hu : st.update id [(Field.likes, FieldInput.increment 1)] <;>
      simp [Store.exec, hu]
  refine ⟨hcalls, ?_⟩
  rw [(hcalls s).1] at htr
  rw [htr.of_replicate_singleton, runCalls_likes N s id d hav hdoc]
  simp [Store.likes, hdoc]

/-- Witness of C7: two like requests on the sample item, whose counter is absent. -/
theorem putLike_no_lost_update_witness :
    (runCalls sampleStore
        [Call.update "cat1" [(Field.likes, FieldInput.increment 1)],
          Call.update "cat1" [(Field.likes, FieldInput.increment 1)]]).likes "cat1" =
      sampleStore.likes "cat1" + (2 : Nat) :=
  (putLike_no_lost_update sampleStore "cat1" sampleDoc 2 _ rfl (by decide)
    (Interleaving.step [] _ [] [[Call.update "cat1" [(Field.likes, FieldInput.increment 1)]]] _
      (Interleaving.step [[]] _ [] [] _
        (Interleaving.done [[], []] (by decide))))).2

/-! ## Create, then read -/

theorem lookupDoc_append_new (docs : List (String × Doc)) (id : String) (d : Doc)
    (h : lookupDoc docs id = none) : lookupDoc (docs ++ [(id, d)]) id = some d := by
  induction docs with
  | nil => simp [lookupDoc]
  | cons p rest ih =>
    obtain ⟨k, e⟩ := p
    by_cases hk : k = id
    · simp [lookupDoc, hk] at h
    · simp only [lookupDoc, hk, if_false] at h
      simp [lookupDoc, hk, ih h]

theorem validateDocument_cons (k : Field) (v : Value) (rest : List (Field × Value))
    (hv : v ≠ Value.undefined) : validateDocument ((k, v) :: rest) = validateDocument rest := by
  cases v with
  | undefined => exact absurd rfl hv
  | scalar x => rfl
  | arr xs => rfl

/-- C8, as stated, fails: for a body that supplies only `subtitle`, the store client
refuses the new document (its other four keys are `undefined`), `POST /items` responds
500 instead of 201, and nothing is stored under the identifier. -/
theorem postItems_partial_body_refused :
    (postItems sampleStore "cat2" 7 subtitleBody).response =
        ⟨500, Body.error (undefinedDocumentError Field.name)⟩ ∧
      (postItems sampleStore "cat2" 7 subtitleBody).store = sampleStore ∧
      (getItemById (postItems sampleStore "cat2" 7 subtitleBody).store "cat2").response.status
        = 404 :=
  ⟨rfl, rfl, rfl⟩

/-- C8, amended: for a request body that supplies all five keys, `POST /items` responds
201 with the identifier the store assigned, and `GET /items/:id` with that identifier
immediately afterwards responds 200 with exactly the five supplied fields and a
`createdAt` equal to the server time read by the create handler. The handler reads only
the five keys of the body, so `createdAt` never comes from the client. -/
theorem postItems_then_getItemById (s : Store) (newId : String) (now : Nat)
    (body : ItemBody) (hav : s.available = true) (hfresh : lookupDoc s.docs newId = none)
    (h1 : body.name ≠ Value.undefined) (h2 : body.image ≠ Value.undefined)
    (h3 : body.description ≠ Value.undefined) (h4 : body.comments ≠ Value.undefined)
    (h5 : body.subtitle ≠ Value.undefined) :
    (postItems s newId now body).response =
        ⟨201, Body.idMessage newId "Item added successfully"⟩ ∧
      (getItemById (postItems s newId now body).store newId).response =
        ⟨200, Body.item newId
          [(Field.name, body.name), (Field.image, body.image),
            (Field.description, body.description), (Field.comments, body.comments),
            (Field.subtitle, body.subtitle),
            (Field.createdAt, Value.scalar (Scalar.timestamp now))]⟩ := by
  have hadd : s.add newId
      (bodyFields body ++ [(Field.createdAt, Value.scalar (Scalar.timestamp now))]) =
      Except.ok (newId, { s with
        docs := s.docs ++ [(newId,
          bodyFields body ++ [(Field.createdAt, Value.scalar (Scalar.timestamp now))])] }) := by
    simp [Store.add, bodyFields, validateDocument_cons, validateDocument, h1, h2, h3, h4, h5,
      hav, hfresh]
  have hout : postItems s newId now body =
      { response := ⟨201, Body.idMessage newId "Item added successfully"⟩,
        store := { s with
          docs := s.docs ++ [(newId,
            bodyFields body ++ [(Field.createdAt, Value.scalar (Scalar.timestamp now))])] },
        calls := [Call.add newId
          (bodyFields body ++ [(Field.createdAt, Value.scalar (Scalar.timestamp now))])] } := by
    simp only [postItems, hadd]
  rw [hout]
  refine ⟨rfl, ?_⟩
  simp [getItemById, Store.get, hav, lookupDoc_append_new _ _ _ hfresh, bodyFields]

/-- Witness of amended C8: a full body created on the sample collection. -/
theorem postItems_then_getItemById_witness :
    (postItems sampleStore "cat2" 7 fullBody).response =
        ⟨201, Body.idMessage "cat2" "Item added successfully"⟩ ∧
      (getItemById (postItems sampleStore "cat2" 7 fullBody).store "cat2").response =
        ⟨200, Body.item "cat2"
          [(Field.name, Value.scalar (Scalar.str "Felix")),
            (Field.image, Value.scalar (Scalar.str "felix.png")),
            (Field.description, Value.scalar (Scalar.str "a cat")),
            (Field.comments, Value.arr []),
            (Field.subtitle, Value.scalar (Scalar.str "new")),
            (Field.createdAt, Value.scalar (Scalar.timestamp 7))]⟩ :=
  postItems_then_getItemById sampleStore "cat2" 7 fullBody rfl (by decide) (by decide)
    (by decide) (by decide) (by decide) (by decide)

end CatPaws
